import Mathlib

/-!
Verification of the outbound delivery reliability layer of the
bun-redis-starter repository: webhook/API retry with exponential backoff
(integration service), fixed-window rate limiting and per-target circuit
breaking (RateLimitService), and the priority-partitioned notification
queue (notification service).

Each definition is a shallow embedding of the corresponding TypeScript
function; network and clock effects are passed in explicitly
(per-attempt outcome functions, `now` arguments), thrown JS exceptions
are modelled as `Option String` / `Except String` values, and Redis
structures are modelled as Lean functions and lists.
-/

namespace BunRedis

/-! ## Webhook delivery (`src/services/integration/src/services/webhook.ts`) -/

/-- Result object returned by `WebhookService.deliverWebhook`
(webhook.ts lines 57-109): it never throws; a completed HTTP response
yields `success = response.ok` with status/body set, a thrown
network/timeout fault is caught and stored in `error`. -/
structure AttemptResult where
  success : Bool
  responseStatus : Option Nat
  responseBody : Option String
  error : Option String
  duration : Nat
deriving Repr, DecidableEq

/-- Outcome of the `fetch` call inside one delivery attempt:
either the promise resolved with an HTTP response (any status code,
including 4xx/5xx), or it rejected (network error / abort timeout). -/
inductive FetchOutcome where
  | response (status : Nat) (body : String)
  | fault (message : String)
deriving Repr, DecidableEq

/-- `response.ok`: true exactly when the status is in the range 200-299. -/
def responseOk (status : Nat) : Bool := 200 ≤ status && status < 300

/-- `WebhookService.deliverWebhook` (webhook.ts lines 57-109), given the
fetch outcome and the measured duration of the attempt. -/
def deliverWebhook (f : FetchOutcome) (duration : Nat) : AttemptResult :=
  match f with
  | .response status body =>
      { success := responseOk status
        responseStatus := some status
        responseBody := some body
        error := none
        duration := duration }
  | .fault message =>
      { success := false
        responseStatus := none
        responseBody := none
        error := some message
        duration := duration }

/-- One row inserted into the `webhook_deliveries` table
(webhook.ts lines 134-147). `delivered` records whether `deliveredAt`
was set (non-null exactly on success). -/
structure DeliveryRecord where
  retryCount : Nat
  responseStatus : Option Nat
  responseBody : Option String
  duration : Nat
  error : Option String
  delivered : Bool
deriving Repr, DecidableEq

/-- The delivery record built from attempt number and attempt result
(webhook.ts lines 134-145). -/
def mkRecord (attempt : Nat) (r : AttemptResult) : DeliveryRecord :=
  { retryCount := attempt
    responseStatus := r.responseStatus
    responseBody := r.responseBody
    duration := r.duration
    error := r.error
    delivered := r.success }

/-- The backoff delay computed at webhook.ts line 154:
`Math.pow(2, attempt) * 1000`. -/
def webhookDelay (attempt : Nat) : Nat := 2 ^ attempt * 1000

/-- JS `x || d` applied to a nullable numeric column: both `null` and `0`
are falsy, so they fall through to the default (webhook.ts line 127). -/
def jsOrNat (v : Option Nat) (d : Nat) : Nat :=
  match v with
  | some n => if n = 0 then d else n
  | none => d

/-- The retry loop of `WebhookService.sendWebhook`
(webhook.ts lines 130-157), with `fuel` the number of loop iterations
still permitted (`maxRetries + 1` at the top call).  Returns the list of
delivery records inserted (in order), the list of backoff sleeps awaited
(in order), and the final `lastResult`. -/
def sendLoop (outcome : Nat → AttemptResult) (maxRetries : Nat) :
    Nat → Nat → List DeliveryRecord × List Nat × Option AttemptResult
  | _, 0 => ([], [], none)
  | attempt, fuel + 1 =>
      let r := outcome attempt
      if r.success then
        ([mkRecord attempt r], [], some r)
      else if attempt < maxRetries then
        let rest := sendLoop outcome maxRetries (attempt + 1) fuel
        (mkRecord attempt r :: rest.1, webhookDelay attempt :: rest.2.1, rest.2.2)
      else
        ([mkRecord attempt r], [], some r)

/-- Observable outcome of one `sendWebhook` call: the rows appended to
`webhook_deliveries`, the backoff sleeps performed, and the exception
thrown at the end if the last attempt failed (webhook.ts lines 159-161). -/
structure SendOutcome where
  records : List DeliveryRecord
  sleeps : List Nat
  thrown : Option String
deriving Repr, DecidableEq

/-- The body of `WebhookService.sendWebhook` after `maxRetries` has been
resolved (webhook.ts lines 130-161): run the retry loop starting at
attempt 0 with `maxRetries + 1` permitted iterations, then throw if the
last result was not a success. -/
def sendWebhookCore (outcome : Nat → AttemptResult) (maxRetries : Nat) : SendOutcome :=
  let res := sendLoop outcome maxRetries 0 (maxRetries + 1)
  { records := res.1
    sleeps := res.2.1
    thrown :=
      match res.2.2 with
      | some r => if r.success then none else some "Webhook delivery failed"
      | none => some "Webhook delivery failed" }

/-- `WebhookService.sendWebhook` (webhook.ts lines 111-162) for an
active config subscribed to the event: resolves
`maxRetries = webhookConfig.retryAttempts || 3` (line 127) and runs the
retry loop, where attempt `i` performs `deliverWebhook` on the `i`-th
fetch outcome. -/
def sendWebhook (fetches : Nat → FetchOutcome) (durations : Nat → Nat)
    (retryAttempts : Option Nat) : SendOutcome :=
  sendWebhookCore (fun i => deliverWebhook (fetches i) (durations i))
    (jsOrNat retryAttempts 3)

/-! ## External API client (`src/services/integration/src/services/apiClient.ts`) -/

/-- The response object returned by `ApiClientService.makeRequest` when
its `fetch` resolves (apiClient.ts lines 100-105); any HTTP status,
including 4xx/5xx, is returned this way, not thrown. -/
structure ApiResponse where
  status : Nat
  body : String
  duration : Nat
deriving Repr, DecidableEq

/-- Per-attempt behaviour of `makeRequest` (apiClient.ts lines 26-125):
`.ok resp` when the fetch resolved (the response is logged and
returned), `.error msg` when it threw a network/timeout/serialization
fault (the fault is logged and rethrown, line 123). -/
def NetBehavior : Type := Nat → Except String ApiResponse

/-- JS `a ?? b ?? c` on nullable numeric settings: only `null` falls
through, `0` is kept (apiClient.ts lines 142-143). -/
def nullishResolve (perCall stored : Option Nat) (dflt : Nat) : Nat :=
  perCall.getD (stored.getD dflt)

/-- `config.externalApis.retryAttempts` (config/index.ts line 73,
default env value '3'). -/
def configRetryAttempts : Nat := 3

/-- `config.externalApis.retryDelay` (config/index.ts line 74,
default env value '1000'). -/
def configRetryDelay : Nat := 1000

/-- The retry loop of `ApiClientService.makeApiCall`
(apiClient.ts lines 147-159), with `fuel` the number of loop iterations
still permitted.  Returns the number of `makeRequest` invocations made,
the backoff sleeps awaited (in order), and the final result: the first
resolved response, or the last thrown error rethrown after exhaustion. -/
def apiLoop (net : NetBehavior) (maxRetries retryDelay : Nat) :
    Nat → Nat → Nat × List Nat × Except String ApiResponse
  | _, 0 => (0, [], .error "")
  | attempt, fuel + 1 =>
      match net attempt with
      | .ok resp => (1, [], .ok resp)
      | .error e =>
          if attempt < maxRetries then
            let rest := apiLoop net maxRetries retryDelay (attempt + 1) fuel
            (rest.1 + 1, retryDelay * 2 ^ attempt :: rest.2.1, rest.2.2)
          else
            (1, [], .error e)

/-- Observable outcome of one `makeApiCall`: number of attempts
executed (= rows appended to `integration_requests`), backoff sleeps,
and the returned response or rethrown error. -/
structure ApiCallOutcome where
  attempts : Nat
  sleeps : List Nat
  result : Except String ApiResponse
deriving Repr

/-- `ApiClientService.makeApiCall` (apiClient.ts lines 127-160) for an
existing, active config: resolves
`maxRetries = options.retryAttempts ?? apiConfig.retryAttempts ?? config.externalApis.retryAttempts`
and
`retryDelay = options.retryDelay ?? apiConfig.retryDelay ?? config.externalApis.retryDelay`
(lines 142-143), then runs the retry loop from attempt 0. -/
def makeApiCall (net : NetBehavior)
    (optRetryAttempts storedRetryAttempts optRetryDelay storedRetryDelay : Option Nat) :
    ApiCallOutcome :=
  let maxRetries := nullishResolve optRetryAttempts storedRetryAttempts configRetryAttempts
  let retryDelay := nullishResolve optRetryDelay storedRetryDelay configRetryDelay
  let res := apiLoop net maxRetries retryDelay 0 (maxRetries + 1)
  { attempts := res.1, sleeps := res.2.1, result := res.2.2 }

/-! ## Circuit breaker (`RateLimitService`, rateLimiter source lines 129-186) -/

/-- The three circuit-breaker states; `opened` models the source's
string `'open'`. -/
inductive CBState where
  | closed
  | opened
  | halfOpen
deriving Repr, DecidableEq

/-- The per-target Redis hash `circuit_breaker:<serviceId>`:
`state`, `failureCount`, and optional `lastFailureTime`. The empty hash
reads back as `state = 'closed'`, `failureCount = 0`, no timestamp
(rateLimiter lines 143-145). -/
structure CircuitBreaker where
  state : CBState
  failureCount : Nat
  lastFailureTime : Option Nat
deriving Repr, DecidableEq

/-- The breaker before any record: the empty Redis hash. -/
def initialBreaker : CircuitBreaker :=
  { state := .closed, failureCount := 0, lastFailureTime := none }

/-- `RateLimitService.checkCircuitBreaker` (rateLimiter lines 129-156):
when the stored state is `open`, the parsed last-failure time is
JS-truthy (present and nonzero: line 150 guards the transition with
`lastFailureTime &&`, and the number 0 is falsy), and
`now - lastFailureTime > recoveryTimeout`, the state is set to
`half-open`; the returned snapshot always equals the post-state. -/
def checkCircuitBreaker (cb : CircuitBreaker) (now recoveryTimeout : Nat) : CircuitBreaker :=
  match cb.state, cb.lastFailureTime with
  | .opened, some t =>
      if t ≠ 0 ∧ now - t > recoveryTimeout then { cb with state := .halfOpen } else cb
  | _, _ => cb

/-- `RateLimitService.recordCircuitBreakerSuccess` (rateLimiter
lines 158-167): sets state `closed`, failure count `0`, and deletes the
last-failure time. -/
def recordCircuitBreakerSuccess (_cb : CircuitBreaker) : CircuitBreaker :=
  { state := .closed, failureCount := 0, lastFailureTime := none }

/-- `RateLimitService.recordCircuitBreakerFailure` (rateLimiter
lines 169-186): increments the failure count, stamps the failure time,
and sets state `open` once the incremented count reaches the
threshold. -/
def recordCircuitBreakerFailure (cb : CircuitBreaker) (now failureThreshold : Nat) :
    CircuitBreaker :=
  let fc := cb.failureCount + 1
  { state := if failureThreshold ≤ fc then .opened else cb.state
    failureCount := fc
    lastFailureTime := some now }

/-- The breaker orchestration of one API call dispatch
(routes/integration.ts lines 153-183): check the breaker (possibly
transitioning open to half-open); if the resulting state is `open`,
reject without an attempt; otherwise run the call and record its final
outcome on the breaker. -/
def apiCallDispatch (cb : CircuitBreaker) (now recoveryTimeout failureThreshold : Nat)
    (callSucceeds : Bool) : CircuitBreaker :=
  let cb1 := checkCircuitBreaker cb now recoveryTimeout
  if cb1.state = .opened then cb1
  else if callSucceeds then recordCircuitBreakerSuccess cb1
  else recordCircuitBreakerFailure cb1 now failureThreshold

/-- The four legal state changes of the breaker (plus staying put). -/
def allowedTransition (a b : CBState) : Prop :=
  a = b ∨
  (a = .closed ∧ b = .opened) ∨
  (a = .opened ∧ b = .halfOpen) ∨
  (a = .halfOpen ∧ b = .closed) ∨
  (a = .halfOpen ∧ b = .opened)

instance (a b : CBState) : Decidable (allowedTransition a b) := by
  unfold allowedTransition
  infer_instance

/-- Invariant maintained by the dispatch orchestration between calls,
under positive clock readings (`Date.now()` is always positive): the
stored state is never `half-open` at rest (half-open exists only
between a check and the following record), and an `open` breaker always
carries a nonzero — that is, JS-truthy — last-failure time and a
failure count at threshold. -/
def BreakerInv (failureThreshold : Nat) (cb : CircuitBreaker) : Prop :=
  cb.state ≠ .halfOpen ∧
  (cb.state = .opened →
    cb.lastFailureTime.getD 0 ≠ 0 ∧ failureThreshold ≤ cb.failureCount)

instance (failureThreshold : Nat) (cb : CircuitBreaker) :
    Decidable (BreakerInv failureThreshold cb) := by
  unfold BreakerInv
  infer_instance

/-! ## Fixed-window rate limiter (`RateLimitService.checkRateLimit`, rateLimiter lines 38-76) -/

/-- The object returned by `checkRateLimit` (rateLimiter lines 70-75). -/
structure RateLimitResult where
  allowed : Bool
  remaining : Nat
  resetTime : Nat
  totalRequests : Nat
deriving Repr, DecidableEq

/-- `RateLimitService.checkRateLimit` (rateLimiter lines 38-76) for one
identifier.  The Redis counters `rate_limit:<id>:<windowStart>` are
modelled as a map from window start to stored count (an absent key
reads 0).  The `MULTI` block increments the current window's counter
unconditionally; `allowed = currentRequests <= maxRequests`,
`remaining = max(0, maxRequests - currentRequests)`, and
`totalRequests = currentRequests`.  The TTL read back is the
`EXPIRE ceil(windowMs/1000)` just set. -/
def checkRateLimit (counts : Nat → Nat) (now windowMs maxRequests : Nat) :
    (Nat → Nat) × RateLimitResult :=
  let windowStart := now / windowMs * windowMs
  let windowEnd := windowStart + windowMs
  let currentRequests := counts windowStart + 1
  let counts1 := fun ws => if ws = windowStart then currentRequests else counts ws
  let ttl := (windowMs + 999) / 1000
  let resetTime := if 0 < ttl then now + ttl * 1000 else windowEnd
  (counts1,
   { allowed := decide (currentRequests ≤ maxRequests)
     remaining := maxRequests - currentRequests
     resetTime := resetTime
     totalRequests := currentRequests })

/-- A sequence of `checkRateLimit` calls at the given timestamps,
threading the counter store; returns the final store and the per-call
results in order. -/
def rateLimitRun (counts : Nat → Nat) (times : List Nat) (windowMs maxRequests : Nat) :
    (Nat → Nat) × List RateLimitResult :=
  match times with
  | [] => (counts, [])
  | t :: ts =>
      let step := checkRateLimit counts t windowMs maxRequests
      let rest := rateLimitRun step.1 ts windowMs maxRequests
      (rest.1, step.2 :: rest.2)

/-! ## Notification queue (`src/services/notification/src/models/index.ts`) -/

/-- Notification channels (the `type` argument of the queue methods). -/
inductive Channel where
  | email
  | sms
  | push
deriving Repr, DecidableEq

/-- Queue priorities. -/
inductive Priority where
  | low
  | normal
  | high
deriving Repr, DecidableEq

/-- The queue-related Redis state of `NotificationStorage`: one list
`queue:<type>:<priority>` per channel+priority partition (head of the
Lean list = left end of the Redis list), plus the
`scheduled:notifications` sorted set. -/
structure NotifQueues where
  ready : Channel → Priority → List String
  scheduled : List (Nat × String)

/-- The state with every queue empty. -/
def emptyQueues : NotifQueues := { ready := fun _ _ => [], scheduled := [] }

/-- Redis `LPUSH`: prepend at the left end. -/
def lpush (payload : String) (l : List String) : List String := payload :: l

/-- Redis `RPOP`: remove and return the element at the right end. -/
def rpop (l : List String) : Option String × List String := (l.getLast?, l.dropLast)

/-- `NotificationStorage.enqueueNotification` (models/index.ts
lines 228-254): a payload with a scheduled time strictly in the future
goes to the scheduled sorted set; otherwise it is `LPUSH`ed onto the
channel+priority ready queue. -/
def enqueueNotification (q : NotifQueues) (ch : Channel) (p : Priority)
    (payload : String) (now : Nat) (scheduledAt : Option Nat) : NotifQueues :=
  let addReady : NotifQueues :=
    { q with
      ready := fun c pr =>
        if c = ch ∧ pr = p then lpush payload (q.ready c pr) else q.ready c pr }
  match scheduledAt with
  | some t => if now < t then { q with scheduled := (t, payload) :: q.scheduled } else addReady
  | none => addReady

/-- `NotificationStorage.dequeueNotification` (models/index.ts
lines 256-266): `RPOP` one payload from the channel+priority ready
queue. -/
def dequeueNotification (q : NotifQueues) (ch : Channel) (p : Priority) :
    Option String × NotifQueues :=
  let popped := rpop (q.ready ch p)
  (popped.1,
   { q with
     ready := fun c pr => if c = ch ∧ pr = p then popped.2 else q.ready c pr })

/-- `NotificationStorage.getQueueLength` (models/index.ts
lines 268-275): `LLEN` of the channel+priority ready queue. -/
def getQueueLength (q : NotifQueues) (ch : Channel) (p : Priority) : Nat :=
  (q.ready ch p).length

/-- `NotificationService.checkRateLimit` (notificationService.ts
lines 22-32): admission succeeds when the length of the channel's
NORMAL-priority ready queue is strictly below the channel's configured
per-minute limit.  No other queue and no clock is consulted. -/
def checkNotifRateLimit (q : NotifQueues) (limits : Channel → Nat) (ch : Channel) : Bool :=
  decide (getQueueLength q ch .normal < limits ch)

/-- The configured per-minute limits (notification config part,
defaults: EMAIL_RATE_LIMIT 60, SMS_RATE_LIMIT 10, PUSH_RATE_LIMIT
1000). -/
def defaultRateLimits : Channel → Nat
  | .email => 60
  | .sms => 10
  | .push => 1000

/-- One call of `NotificationService.processEmailQueue` /
`processSmsQueue` / `processPushQueue` (notificationService.ts
lines 316-347), which all share this shape: for each priority in the
order high, normal, low, dequeue one entry and, if present, send it.
Returns the new queue state and the payloads handed to the send
function, in processing order. -/
def processChannelQueue (q : NotifQueues) (ch : Channel) : NotifQueues × List String :=
  let d1 := dequeueNotification q ch .high
  let d2 := dequeueNotification d1.2 ch .normal
  let d3 := dequeueNotification d2.2 ch .low
  (d3.2, d1.1.toList ++ d2.1.toList ++ d3.1.toList)

/-- Repeatedly `RPOP` a partition until it is empty, collecting the
payloads in dequeue order. -/
def drainReady (l : List String) : List String :=
  go l.length l
where
  go : Nat → List String → List String
    | 0, _ => []
    | fuel + 1, l =>
        match rpop l with
        | (none, _) => []
        | (some x, rest) => x :: go fuel rest

/-! ## Concrete inputs used in closed instances -/

/-- Attempt outcomes that always complete with an HTTP 500 response. -/
def failOutcome : Nat → AttemptResult := fun i =>
  deliverWebhook (.response 500 "Internal Server Error") i

/-- Attempt outcomes failing at attempt 0 and succeeding from attempt 1. -/
def mixedOutcome : Nat → AttemptResult := fun i =>
  if i = 0 then deliverWebhook (.fault "ECONNRESET") 5
  else deliverWebhook (.response 200 "ok") 3

/-- Fetches that always reject with a network fault. -/
def faultFetches : Nat → FetchOutcome := fun _ => .fault "ETIMEDOUT"

/-- API network behaviour whose every attempt throws. -/
def faultNet : NetBehavior := fun _ => .error "ETIMEDOUT"

/-- A completed HTTP 500 response. -/
def resp500 : ApiResponse := { status := 500, body := "Internal Server Error", duration := 12 }

/-- API network behaviour that resolves with HTTP 500 on every attempt. -/
def net500 : NetBehavior := fun _ => .ok resp500

/-- A completed HTTP 200 response. -/
def okResp : ApiResponse := { status := 200, body := "ok", duration := 8 }

/-- API network behaviour that throws on attempts 0 and 1 and resolves
with HTTP 200 from attempt 2. -/
def netFailTwice : NetBehavior := fun i =>
  if i < 2 then .error "ECONNRESET" else .ok okResp

/-- Queue state after enqueueing h1 and h2 at email/high and n1 at
email/normal, all immediate. -/
def twoHighOneNormal : NotifQueues :=
  enqueueNotification
    (enqueueNotification
      (enqueueNotification emptyQueues .email .high "h1" 0 none)
      .email .high "h2" 0 none)
    .email .normal "n1" 0 none

/-- Queue state after enqueueing a then b at email/normal, immediate. -/
def abQueues : NotifQueues :=
  enqueueNotification (enqueueNotification emptyQueues .email .normal "a" 0 none)
    .email .normal "b" 0 none

/-- A store with one entry in the email normal queue. -/
def admissionBase : NotifQueues :=
  enqueueNotification emptyQueues .email .normal "x" 0 none

/-- The same store with an extra high-priority entry and an extra
scheduled entry; its normal queue is identical to `admissionBase`. -/
def admissionBusy : NotifQueues :=
  enqueueNotification
    (enqueueNotification admissionBase .email .high "y" 0 none)
    .email .low "z" 0 (some 50)

/-! ## Lemmas -/

/-! ### Lemmas about the webhook retry loop -/

theorem sendLoop_allFail (outcome : Nat → AttemptResult) (n : Nat)
    (hfail : ∀ i, (outcome i).success = false) :
    ∀ fuel attempt, attempt + fuel = n →
      sendLoop outcome n attempt (fuel + 1) =
        ((List.range' attempt (fuel + 1)).map (fun i => mkRecord i (outcome i)),
         (List.range' attempt fuel).map webhookDelay,
         some (outcome n)) := by
  intro fuel
  induction fuel with
  | zero =>
      intro attempt h
      simp only [Nat.add_zero] at h
      subst h
      simp [sendLoop, hfail attempt, List.range'_one]
  | succ f ih =>
      intro attempt h
      have hlt : attempt < n := by omega
      have hstep := ih (attempt + 1) (by omega)
      rw [sendLoop]
      simp [hfail attempt, hlt, hstep, List.range'_succ]

theorem sendLoop_firstSuccess (outcome : Nat → AttemptResult) (n k : Nat)
    (hk : k ≤ n)
    (hfail : ∀ i, i < k → (outcome i).success = false)
    (hsucc : (outcome k).success = true) :
    ∀ fuel attempt, attempt + fuel = n → attempt ≤ k →
      sendLoop outcome n attempt (fuel + 1) =
        ((List.range' attempt (k + 1 - attempt)).map (fun i => mkRecord i (outcome i)),
         (List.range' attempt (k - attempt)).map webhookDelay,
         some (outcome k)) := by
  intro fuel
  induction fuel with
  | zero =>
      intro attempt h hak
      have : attempt = n := by omega
      subst this
      have : k = attempt := by omega
      subst this
      simp [sendLoop, hsucc, List.range'_one]
  | succ f ih =>
      intro attempt h hak
      by_cases hek : attempt = k
      · have h1 : k + 1 - attempt = 1 := by omega
        have h0 : k - attempt = 0 := by omega
        rw [sendLoop]
        simp [hek, hsucc, h1, h0, List.range'_one]
      · have hlt : attempt < k := by omega
        have hltn : attempt < n := by omega
        have hstep := ih (attempt + 1) (by omega) (by omega)
        have hr1 : k + 1 - attempt = (k + 1 - (attempt + 1)) + 1 := by omega
        have hr2 : k - attempt = (k - (attempt + 1)) + 1 := by omega
        rw [sendLoop, hr1, hr2]
        simp [hfail attempt hlt, hltn, hstep, List.range'_succ]

theorem sendWebhookCore_allFail (outcome : Nat → AttemptResult) (n : Nat)
    (hfail : ∀ i, (outcome i).success = false) :
    sendWebhookCore outcome n =
      { records := (List.range (n + 1)).map (fun i => mkRecord i (outcome i))
        sleeps := (List.range n).map webhookDelay
        thrown := some "Webhook delivery failed" } := by
  have h := sendLoop_allFail outcome n hfail n 0 (by omega)
  simp only [sendWebhookCore, h, List.range_eq_range', hfail n, Bool.false_eq_true, if_false]

theorem sendWebhookCore_firstSuccess (outcome : Nat → AttemptResult) (n k : Nat)
    (hk : k ≤ n)
    (hfail : ∀ i, i < k → (outcome i).success = false)
    (hsucc : (outcome k).success = true) :
    sendWebhookCore outcome n =
      { records := (List.range (k + 1)).map (fun i => mkRecord i (outcome i))
        sleeps := (List.range k).map webhookDelay
        thrown := none } := by
  have h := sendLoop_firstSuccess outcome n k hk hfail hsucc n 0 (by omega) (by omega)
  simp only [sendWebhookCore, h, List.range_eq_range', Nat.sub_zero, hsucc, if_true]

/-! ### Lemmas about the API retry loop -/

theorem apiLoop_allError (es : Nat → String) (maxRetries retryDelay : Nat)
    (net : NetBehavior) (hnet : ∀ i, net i = .error (es i)) :
    ∀ fuel attempt, attempt + fuel = maxRetries →
      apiLoop net maxRetries retryDelay attempt (fuel + 1) =
        (fuel + 1,
         (List.range' attempt fuel).map (fun i => retryDelay * 2 ^ i),
         .error (es maxRetries)) := by
  intro fuel
  induction fuel with
  | zero =>
      intro attempt h
      simp only [Nat.add_zero] at h
      subst h
      rw [apiLoop, hnet attempt]
      simp
  | succ f ih =>
      intro attempt h
      have hlt : attempt < maxRetries := by omega
      have hstep := ih (attempt + 1) (by omega)
      rw [apiLoop, hnet attempt]
      simp [hlt, hstep, List.range'_succ]

theorem apiLoop_firstOk (es : Nat → String) (maxRetries retryDelay k : Nat)
    (resp : ApiResponse) (net : NetBehavior)
    (hk : k ≤ maxRetries)
    (hfail : ∀ i, i < k → net i = .error (es i))
    (hok : net k = .ok resp) :
    ∀ fuel attempt, attempt + fuel = maxRetries → attempt ≤ k →
      apiLoop net maxRetries retryDelay attempt (fuel + 1) =
        (k + 1 - attempt,
         (List.range' attempt (k - attempt)).map (fun i => retryDelay * 2 ^ i),
         .ok resp) := by
  intro fuel
  induction fuel with
  | zero =>
      intro attempt h hak
      have hae : attempt = maxRetries := by omega
      have hke : k = attempt := by omega
      subst hae
      subst hke
      rw [apiLoop, hok]
      simp
  | succ f ih =>
      intro attempt h hak
      by_cases hek : attempt = k
      · subst hek
        rw [apiLoop, hok]
        simp
      · have hlt : attempt < k := by omega
        have hstep := ih (attempt + 1) (by omega) (by omega)
        have hr1 : k + 1 - attempt = (k + 1 - (attempt + 1)) + 1 := by omega
        have hr2 : k - attempt = (k - (attempt + 1)) + 1 := by omega
        rw [apiLoop, hfail attempt hlt, hr1, hr2]
        simp [hstep, List.range'_succ, Nat.lt_of_lt_of_le hlt hk]

theorem makeApiCall_allError (es : Nat → String) (net : NetBehavior)
    (hnet : ∀ i, net i = .error (es i))
    (oRA sRA oRD sRD : Option Nat) :
    makeApiCall net oRA sRA oRD sRD =
      { attempts := nullishResolve oRA sRA configRetryAttempts + 1
        sleeps := (List.range (nullishResolve oRA sRA configRetryAttempts)).map
          (fun i => nullishResolve oRD sRD configRetryDelay * 2 ^ i)
        result := .error (es (nullishResolve oRA sRA configRetryAttempts)) } := by
  have h := apiLoop_allError es (nullishResolve oRA sRA configRetryAttempts)
    (nullishResolve oRD sRD configRetryDelay) net hnet
    (nullishResolve oRA sRA configRetryAttempts) 0 (by omega)
  simp only [makeApiCall, h, List.range_eq_range']

theorem makeApiCall_firstOk (es : Nat → String) (net : NetBehavior) (k : Nat)
    (resp : ApiResponse)
    (oRA sRA oRD sRD : Option Nat)
    (hk : k ≤ nullishResolve oRA sRA configRetryAttempts)
    (hfail : ∀ i, i < k → net i = .error (es i))
    (hok : net k = .ok resp) :
    makeApiCall net oRA sRA oRD sRD =
      { attempts := k + 1
        sleeps := (List.range k).map
          (fun i => nullishResolve oRD sRD configRetryDelay * 2 ^ i)
        result := .ok resp } := by
  have h := apiLoop_firstOk es (nullishResolve oRA sRA configRetryAttempts)
    (nullishResolve oRD sRD configRetryDelay) k resp net hk hfail hok
    (nullishResolve oRA sRA configRetryAttempts) 0 (by omega) (by omega)
  simp only [makeApiCall, h, List.range_eq_range', Nat.sub_zero]

/-! ### Breaker lemmas -/

theorem checkCircuitBreaker_state (cb : CircuitBreaker) (now rto : Nat) :
    checkCircuitBreaker cb now rto =
      if cb.state = .opened ∧ ∃ t, cb.lastFailureTime = some t ∧ t ≠ 0 ∧ rto < now - t
      then { cb with state := .halfOpen } else cb := by
  unfold checkCircuitBreaker
  rcases hs : cb.state <;> rcases ht : cb.lastFailureTime with _ | t <;> simp [hs, ht]

theorem breakerInv_initial (θ : Nat) : BreakerInv θ initialBreaker := by
  simp [BreakerInv, initialBreaker]

theorem breakerInv_check (cb : CircuitBreaker) (now rto : Nat) :
    (checkCircuitBreaker cb now rto).failureCount = cb.failureCount ∧
    (checkCircuitBreaker cb now rto).lastFailureTime = cb.lastFailureTime ∧
    ((checkCircuitBreaker cb now rto).state = .halfOpen →
      cb.state = .opened ∨ cb.state = .halfOpen) := by
  rw [checkCircuitBreaker_state]
  by_cases hc :
      cb.state = .opened ∧ ∃ t, cb.lastFailureTime = some t ∧ t ≠ 0 ∧ rto < now - t <;>
    simp [hc]
  intro hs
  exact Or.inr hs

theorem breakerInv_dispatch (θ : Nat) (cb : CircuitBreaker)
    (now rto : Nat) (b : Bool) (h : BreakerInv θ cb) (hnow : 1 ≤ now) :
    BreakerInv θ (apiCallDispatch cb now rto θ b) := by
  obtain ⟨h1, h2⟩ := h
  have hnz : now ≠ 0 := by omega
  unfold apiCallDispatch
  rw [checkCircuitBreaker_state]
  by_cases hc : cb.state = .opened ∧ ∃ t, cb.lastFailureTime = some t ∧ t ≠ 0 ∧ rto < now - t
  · have hth := (h2 hc.1).2
    rw [if_pos hc]
    rcases b
    · simp [recordCircuitBreakerFailure, BreakerInv, Nat.le_succ_of_le hth, hnz]
    · simp [recordCircuitBreakerSuccess, BreakerInv]
  · rw [if_neg hc]
    by_cases hso : cb.state = .opened
    · rw [if_pos hso]
      exact ⟨h1, h2⟩
    · rcases b
      · by_cases hθ : θ ≤ cb.failureCount + 1
        · simp [hso, BreakerInv, recordCircuitBreakerFailure, hθ, hnz]
        · simp [hso, BreakerInv, recordCircuitBreakerFailure, hθ, h1]
      · simp [hso, BreakerInv, recordCircuitBreakerSuccess]

/-! ### Rate limiter lemmas -/

theorem rateLimitRun_window (windowMs maxRequests ws : Nat) :
    ∀ (times : List Nat) (counts : Nat → Nat),
      (∀ t ∈ times, t / windowMs * windowMs = ws) →
      ((rateLimitRun counts times windowMs maxRequests).2.map (·.totalRequests) =
        List.range' (counts ws + 1) times.length ∧
       (rateLimitRun counts times windowMs maxRequests).2.map (·.allowed) =
        (List.range' (counts ws + 1) times.length).map (fun j => decide (j ≤ maxRequests)) ∧
       (rateLimitRun counts times windowMs maxRequests).1 ws =
        counts ws + times.length) := by
  intro times
  induction times with
  | nil => intro counts _; simp [rateLimitRun]
  | cons t ts ih =>
      intro counts hmem
      have hw : t / windowMs * windowMs = ws := hmem t (by simp)
      have ihs := ih (fun w => if w = ws then counts ws + 1 else counts w)
        (fun u hu => hmem u (by simp [hu]))
      simp only [eq_self_iff_true, if_true] at ihs
      simp only [rateLimitRun, checkRateLimit, hw]
      refine ⟨?_, ?_, ?_⟩
      · simp [List.range'_succ, ihs.1]
      · simp [List.range'_succ, ihs.2.1]
      · rw [ihs.2.2]
        simp only [List.length_cons]
        omega

/-! ### Queue lemmas -/

theorem drainReady_go_eq_reverse :
    ∀ (fuel : Nat) (l : List String), l.length ≤ fuel →
      drainReady.go fuel l = l.reverse := by
  intro fuel
  induction fuel with
  | zero =>
      intro l h
      have : l = [] := List.length_eq_zero.mp (by omega)
      subst this
      rfl
  | succ f ih =>
      intro l h
      rcases List.eq_nil_or_concat l with rfl | ⟨ys, y, rfl⟩
      · rfl
      · have hlen : ys.length ≤ f := by
          simpa using Nat.le_of_succ_le_succ (by simpa using h)
        simp [drainReady.go, rpop, ih ys hlen]

theorem drainReady_eq_reverse (l : List String) : drainReady l = l.reverse :=
  drainReady_go_eq_reverse l.length l (Nat.le_refl _)

theorem processChannelQueue_spec (q : NotifQueues) (ch : Channel) :
    (processChannelQueue q ch).2 =
      (q.ready ch .high).getLast?.toList ++ (q.ready ch .normal).getLast?.toList ++
        (q.ready ch .low).getLast?.toList ∧
    (∀ p, (processChannelQueue q ch).1.ready ch p = (q.ready ch p).dropLast) ∧
    (∀ c p, c ≠ ch → (processChannelQueue q ch).1.ready c p = q.ready c p) := by
  refine ⟨?_, ?_, ?_⟩
  · simp [processChannelQueue, dequeueNotification, rpop]
  · intro p
    rcases p <;> simp [processChannelQueue, dequeueNotification, rpop]
  · intro c p hc
    rcases p <;> simp [processChannelQueue, dequeueNotification, rpop, hc]

/-! ### Further retry-loop lemmas -/

theorem sendLoop_ne_nil (outcome : Nat → AttemptResult) (n attempt fuel : Nat) :
    (sendLoop outcome n attempt (fuel + 1)).1 ≠ [] := by
  simp only [sendLoop]
  split_ifs <;> simp

theorem sendWebhookCore_retries_first_failure (outcome : Nat → AttemptResult) (n : Nat)
    (hn : 1 ≤ n) (h0 : (outcome 0).success = false) :
    2 ≤ (sendWebhookCore outcome n).records.length := by
  obtain ⟨m, rfl⟩ : ∃ m, n = m + 1 := ⟨n - 1, by omega⟩
  have hne := sendLoop_ne_nil outcome (m + 1) 1 m
  have hpos := List.length_pos.mpr hne
  simp only [sendWebhookCore]
  rw [sendLoop]
  simp [h0]
  omega

theorem makeApiCall_firstResolved (net : NetBehavior) (resp : ApiResponse)
    (oRA sRA oRD sRD : Option Nat) (h : net 0 = .ok resp) :
    makeApiCall net oRA sRA oRD sRD = { attempts := 1, sleeps := [], result := .ok resp } := by
  have hfo := makeApiCall_firstOk (fun _ => "") net 0 resp oRA sRA oRD sRD
    (Nat.zero_le _) (fun i hi => absurd hi (Nat.not_lt_zero i)) h
  simpa using hfo

/-! ### Further breaker lemmas -/

theorem check_transition_allowed (cb : CircuitBreaker) (now rto : Nat) :
    allowedTransition cb.state (checkCircuitBreaker cb now rto).state := by
  rw [checkCircuitBreaker_state]
  by_cases hc :
      cb.state = .opened ∧ ∃ t, cb.lastFailureTime = some t ∧ t ≠ 0 ∧ rto < now - t
  · simp [hc, allowedTransition, hc.1]
  · simp [hc, allowedTransition]

theorem record_transition_allowed (θ : Nat) (cb : CircuitBreaker) (now rto : Nat) (b : Bool) :
    allowedTransition (checkCircuitBreaker cb now rto).state
      (apiCallDispatch cb now rto θ b).state := by
  unfold apiCallDispatch
  by_cases hop : (checkCircuitBreaker cb now rto).state = .opened
  · simp [hop, allowedTransition]
  · simp only [hop, if_false]
    rcases b
    · by_cases hθ : θ ≤ (checkCircuitBreaker cb now rto).failureCount + 1 <;>
        rcases hs : (checkCircuitBreaker cb now rto).state <;>
          first
            | exact absurd hs hop
            | simp [recordCircuitBreakerFailure, hθ, hs, allowedTransition]
    · rcases hs : (checkCircuitBreaker cb now rto).state <;>
        first
          | exact absurd hs hop
          | simp [recordCircuitBreakerSuccess, hs, allowedTransition]

/-! ### Further rate-limiter lemmas -/

theorem range'_map_decide_le (m : Nat) :
    (List.range' 1 (m + 1)).map (fun j => decide (j ≤ m)) =
      List.replicate m true ++ [false] := by
  rw [List.range'_concat, List.map_append]
  have h1 : (List.range' 1 m).map (fun j => decide (j ≤ m)) = List.replicate m true := by
    refine List.eq_replicate_iff.mpr ⟨by simp, ?_⟩
    intro b hb
    simp only [List.mem_map] at hb
    obtain ⟨j, hj, rfl⟩ := hb
    have hmem := List.mem_range'_1.mp hj
    simp only [decide_eq_true_eq]
    omega
  have h2 : decide (1 + m ≤ m) = false := by
    simp only [decide_eq_false_iff_not]
    omega
  simp [h1, h2]

/-! ## Claim theorems -/

/-- C1: For a logical webhook delivery with resolved `maxRetries = n`:
if every attempt fails, `sendWebhook` records exactly `n + 1`
delivery-history rows with attempt numbers 0 through n and the delivery
ends as a terminal failure (a thrown exception); if the first
successful attempt has index `k ≤ n`, exactly `k + 1` rows with attempt
numbers 0 through k are recorded — so no attempt after index k is
executed — and no exception is thrown. -/
theorem claim_C1_attempt_counts (outcome : Nat → AttemptResult) (n k : Nat) :
    ((∀ i, (outcome i).success = false) →
      (sendWebhookCore outcome n).records.map DeliveryRecord.retryCount = List.range (n + 1) ∧
      (sendWebhookCore outcome n).thrown.isSome = true) ∧
    (k ≤ n → (∀ i, i < k → (outcome i).success = false) → (outcome k).success = true →
      (sendWebhookCore outcome n).records.map DeliveryRecord.retryCount = List.range (k + 1) ∧
      (sendWebhookCore outcome n).thrown = none) := by
  constructor
  · intro hfail
    rw [sendWebhookCore_allFail outcome n hfail]
    simp [mkRecord, List.map_map, Function.comp_def]
  · intro hk hfail hsucc
    rw [sendWebhookCore_firstSuccess outcome n k hk hfail hsucc]
    simp [mkRecord, List.map_map, Function.comp_def]

/-- Closed instance of C1: three failing attempts with `maxRetries = 2`
record rows 0,1,2 and throw; a failure at attempt 0 followed by a
success at attempt 1 with `maxRetries = 3` records rows 0,1 and does
not throw. -/
theorem claim_C1_attempt_counts_witness :
    ((sendWebhookCore failOutcome 2).records.map DeliveryRecord.retryCount = List.range 3 ∧
      (sendWebhookCore failOutcome 2).thrown.isSome = true) ∧
    ((sendWebhookCore mixedOutcome 3).records.map DeliveryRecord.retryCount = List.range 2 ∧
      (sendWebhookCore mixedOutcome 3).thrown = none) :=
  ⟨(claim_C1_attempt_counts failOutcome 2 0).1 (fun _ => rfl),
   (claim_C1_attempt_counts mixedOutcome 3 1).2 (by omega)
     (fun i hi => by
       have h0 : i = 0 := by omega
       subst h0
       rfl)
     (by decide)⟩

/-- C2 counterexample: with the target's stored retry-attempts value 0
(and no per-call override — the webhook path accepts none), the claim
predicts exactly one attempt; the code resolves
`maxRetries = retryAttempts || 3`, for which 0 is falsy, so a
permanently failing delivery makes four attempts with three backoff
sleeps. -/
theorem claim_C2_counterexample :
    jsOrNat (some 0) 3 = 3 ∧
    (sendWebhook faultFetches (fun _ => 0) (some 0)).records.length = 4 ∧
    (sendWebhook faultFetches (fun _ => 0) (some 0)).sleeps = [1000, 2000, 4000] := by
  refine ⟨rfl, ?_, ?_⟩ <;> decide

/-- C2 (amended): in the API-client path `maxRetries` is resolved with
`??` precedence (per-call override, then stored config, then default 3)
and a stored 0 with no override yields exactly one attempt and no
sleep, whatever the network does; the webhook path has no per-call
override and combines the stored value with JS `||`, so a stored 0 (or
null) falls back to 3 while any nonzero stored value is used. -/
theorem claim_C2_amended (net : NetBehavior) (oDelay sDelay : Option Nat) (m : Nat)
    (o s : Option Nat) :
    nullishResolve o s configRetryAttempts = o.getD (s.getD 3) ∧
    ((makeApiCall net none (some 0) oDelay sDelay).attempts = 1 ∧
     (makeApiCall net none (some 0) oDelay sDelay).sleeps = []) ∧
    jsOrNat none 3 = 3 ∧
    jsOrNat (some 0) 3 = 3 ∧
    (m ≠ 0 → jsOrNat (some m) 3 = m) := by
  refine ⟨rfl, ?_, rfl, rfl, ?_⟩
  · cases h : net 0 <;>
      simp [makeApiCall, nullishResolve, configRetryAttempts, apiLoop, h]
  · intro hm
    simp [jsOrNat, hm]

/-- Closed instance of the amended C2: a stored 0 in the API path gives
one attempt; a stored 5 in the webhook path is used as-is. -/
theorem claim_C2_amended_witness :
    (makeApiCall faultNet none (some 0) none none).attempts = 1 ∧
    jsOrNat (some 5) 3 = 5 :=
  ⟨(claim_C2_amended faultNet none none 5 none none).2.1.1,
   (claim_C2_amended faultNet none none 5 none none).2.2.2.2 (by decide)⟩

/-- C3: the backoff sleep inserted before attempt `i` (i ≥ 1) is
`baseDelayMs * 2^(i-1)` — the sleeps list always has exactly one entry
fewer than the number of attempts, so no sleep precedes attempt 0 and
none follows the final attempt.  On the webhook path the base is the
default 1000 ms (that path has no per-call or per-target delay
setting); on the API path the base is resolved per call as
`options.retryDelay ?? apiConfig.retryDelay ?? 1000`. -/
theorem claim_C3_backoff (outcome : Nat → AttemptResult) (net : NetBehavior)
    (es : Nat → String) (n k : Nat) (resp : ApiResponse) (oRA sRA oRD sRD : Option Nat) :
    ((∀ i, (outcome i).success = false) →
      (sendWebhookCore outcome n).sleeps = (List.range n).map (fun i => 2 ^ i * 1000) ∧
      (sendWebhookCore outcome n).records.length = n + 1) ∧
    (k ≤ n → (∀ i, i < k → (outcome i).success = false) → (outcome k).success = true →
      (sendWebhookCore outcome n).sleeps = (List.range k).map (fun i => 2 ^ i * 1000) ∧
      (sendWebhookCore outcome n).records.length = k + 1) ∧
    ((∀ i, net i = .error (es i)) →
      (makeApiCall net oRA sRA oRD sRD).sleeps =
        (List.range (nullishResolve oRA sRA configRetryAttempts)).map
          (fun i => nullishResolve oRD sRD configRetryDelay * 2 ^ i) ∧
      (makeApiCall net oRA sRA oRD sRD).attempts =
        nullishResolve oRA sRA configRetryAttempts + 1) ∧
    (k ≤ nullishResolve oRA sRA configRetryAttempts →
      (∀ i, i < k → net i = .error (es i)) → net k = .ok resp →
      (makeApiCall net oRA sRA oRD sRD).sleeps =
        (List.range k).map (fun i => nullishResolve oRD sRD configRetryDelay * 2 ^ i) ∧
      (makeApiCall net oRA sRA oRD sRD).attempts = k + 1) := by
  refine ⟨?_, ?_, ?_, ?_⟩
  · intro hfail
    rw [sendWebhookCore_allFail outcome n hfail]
    simp [webhookDelay]
  · intro hk hfail hsucc
    rw [sendWebhookCore_firstSuccess outcome n k hk hfail hsucc]
    simp [webhookDelay]
  · intro hnet
    rw [makeApiCall_allError es net hnet oRA sRA oRD sRD]
    simp
  · intro hk hfail hok
    rw [makeApiCall_firstOk es net k resp oRA sRA oRD sRD hk hfail hok]
    simp

/-- Closed instance of C3: all-failing webhook delivery with
`maxRetries = 2` sleeps 1000 then 2000 ms; an API call that throws on
attempts 0 and 1 and resolves on attempt 2, with stored retryDelay 500,
sleeps 500 then 1000 ms. -/
theorem claim_C3_backoff_witness :
    ((sendWebhookCore failOutcome 2).sleeps = (List.range 2).map (fun i => 2 ^ i * 1000) ∧
      (sendWebhookCore failOutcome 2).records.length = 2 + 1) ∧
    ((makeApiCall netFailTwice none none none (some 500)).sleeps =
        (List.range 2).map (fun i => nullishResolve none (some 500) configRetryDelay * 2 ^ i) ∧
      (makeApiCall netFailTwice none none none (some 500)).attempts = 2 + 1) :=
  ⟨(claim_C3_backoff failOutcome faultNet (fun _ => "ETIMEDOUT") 2 0 okResp
      none none none none).1 (fun _ => rfl),
   (claim_C3_backoff failOutcome netFailTwice (fun _ => "ECONNRESET") 2 2 okResp
      none none none (some 500)).2.2.2 (by decide)
     (fun i hi => by
       have h01 : i = 0 ∨ i = 1 := by omega
       rcases h01 with rfl | rfl <;> rfl)
     rfl⟩

/-- C4: The per-target circuit breaker only ever transitions
closed→open (recordFailure bringing the count to at least the
threshold), open→half-open (a check finding the recovery timeout
elapsed since a JS-truthy last-failure time), half-open→closed
(recordSuccess, which also resets the count to 0 and clears the
last-failure time) or half-open→open (recordFailure); and, over states
reachable by the dispatch orchestration under positive clock readings
(which never stores half-open at rest and always stamps a nonzero
failure time when opening), `checkCircuitBreaker` returns half-open
exactly when the stored state was open and the time since the last
failure exceeds the recovery timeout. -/
theorem claim_C4_circuit_breaker (θ : Nat) (cb : CircuitBreaker) (now rto : Nat) (b : Bool)
    (hInv : BreakerInv θ cb) :
    ((checkCircuitBreaker cb now rto).state = .halfOpen ↔
      cb.state = .opened ∧ ∃ t, cb.lastFailureTime = some t ∧ rto < now - t) ∧
    recordCircuitBreakerSuccess cb =
      { state := .closed, failureCount := 0, lastFailureTime := none } ∧
    ((recordCircuitBreakerFailure cb now θ).state ≠ cb.state →
      (recordCircuitBreakerFailure cb now θ).state = .opened ∧ θ ≤ cb.failureCount + 1) ∧
    allowedTransition cb.state (checkCircuitBreaker cb now rto).state ∧
    allowedTransition (checkCircuitBreaker cb now rto).state
      (apiCallDispatch cb now rto θ b).state ∧
    (1 ≤ now → BreakerInv θ (apiCallDispatch cb now rto θ b)) ∧
    BreakerInv θ initialBreaker := by
  refine ⟨?_, rfl, ?_, check_transition_allowed cb now rto,
    record_transition_allowed θ cb now rto b,
    fun hnow => breakerInv_dispatch θ cb now rto b hInv hnow, breakerInv_initial θ⟩
  · rw [checkCircuitBreaker_state]
    by_cases hc :
        cb.state = .opened ∧ ∃ t, cb.lastFailureTime = some t ∧ t ≠ 0 ∧ rto < now - t
    · rw [if_pos hc]
      obtain ⟨hop, t, ht, htz, hlt⟩ := hc
      exact ⟨fun _ => ⟨hop, t, ht, hlt⟩, fun _ => rfl⟩
    · rw [if_neg hc]
      constructor
      · intro hs
        exact absurd hs hInv.1
      · rintro ⟨hop, t, ht, hlt⟩
        exfalso
        apply hc
        refine ⟨hop, t, ht, ?_, hlt⟩
        have hgd := (hInv.2 hop).1
        rw [ht] at hgd
        simpa using hgd
  · intro hne
    by_cases hθ : θ ≤ cb.failureCount + 1
    · exact ⟨by simp [recordCircuitBreakerFailure, hθ], hθ⟩
    · exact absurd (by simp [recordCircuitBreakerFailure, hθ]) hne

/-- Closed instance of C4: an open breaker (count 5, threshold 5, last
failure stamped at time 1000) checked at time 100000 with recovery
timeout 60000 transitions to half-open, and a successful dispatch from
that state restores a closed breaker satisfying the invariant. -/
theorem claim_C4_circuit_breaker_witness :
    ((checkCircuitBreaker ⟨.opened, 5, some 1000⟩ 100000 60000).state = .halfOpen ↔
      (CircuitBreaker.mk .opened 5 (some 1000)).state = .opened ∧
        ∃ t, (CircuitBreaker.mk .opened 5 (some 1000)).lastFailureTime = some t ∧
          60000 < 100000 - t) ∧
    allowedTransition (CircuitBreaker.mk .opened 5 (some 1000)).state
      (checkCircuitBreaker ⟨.opened, 5, some 1000⟩ 100000 60000).state ∧
    BreakerInv 5 (apiCallDispatch ⟨.opened, 5, some 1000⟩ 100000 60000 5 true) :=
  ⟨(claim_C4_circuit_breaker 5 ⟨.opened, 5, some 1000⟩ 100000 60000 true
      (by decide)).1,
   (claim_C4_circuit_breaker 5 ⟨.opened, 5, some 1000⟩ 100000 60000 true
      (by decide)).2.2.2.1,
   (claim_C4_circuit_breaker 5 ⟨.opened, 5, some 1000⟩ 100000 60000 true
      (by decide)).2.2.2.2.2.1 (by decide)⟩

/-- C5: every `checkRateLimit` call increments the current window's
counter (even a denied call), `allowed` is exactly
`totalInWindow ≤ maxRequests`, a fresh window admits the first m calls
and denies the (m+1)th, and the first call after a window rollover is
allowed with `totalInWindow = 1`. -/
theorem claim_C5_fixed_window (counts : Nat → Nat) (now windowMs m ws : Nat)
    (times : List Nat) :
    ((checkRateLimit counts now windowMs m).1 (now / windowMs * windowMs) =
      counts (now / windowMs * windowMs) + 1) ∧
    ((checkRateLimit counts now windowMs m).2.allowed =
      decide ((checkRateLimit counts now windowMs m).2.totalRequests ≤ m)) ∧
    ((checkRateLimit counts now windowMs m).2.totalRequests =
      counts (now / windowMs * windowMs) + 1) ∧
    ((∀ t ∈ times, t / windowMs * windowMs = ws) → counts ws = 0 → times.length = m + 1 →
      (rateLimitRun counts times windowMs m).2.map (·.allowed) =
        List.replicate m true ++ [false]) ∧
    (counts (now / windowMs * windowMs) = 0 → 1 ≤ m →
      (checkRateLimit counts now windowMs m).2.allowed = true ∧
      (checkRateLimit counts now windowMs m).2.totalRequests = 1) := by
  refine ⟨by simp [checkRateLimit], rfl, rfl, ?_, ?_⟩
  · intro hmem h0 hlen
    have h := (rateLimitRun_window windowMs m ws times counts hmem).2.1
    rw [h, h0, hlen]
    simpa using range'_map_decide_le m
  · intro h0 hm
    constructor
    · simp [checkRateLimit, h0, hm]
    · simp [checkRateLimit, h0]

/-- Closed instance of C5: with window size 10 and limit 2, three calls
at times 31, 32, 33 (all in the window starting at 30) yield
allowed, allowed, denied; a first call at time 45 on a fresh window is
allowed with total 1. -/
theorem claim_C5_fixed_window_witness :
    ((rateLimitRun (fun _ => 0) [31, 32, 33] 10 2).2.map (·.allowed) =
      List.replicate 2 true ++ [false]) ∧
    ((checkRateLimit (fun _ => 0) 45 10 2).2.allowed = true ∧
      (checkRateLimit (fun _ => 0) 45 10 2).2.totalRequests = 1) :=
  ⟨(claim_C5_fixed_window (fun _ => 0) 45 10 2 30 [31, 32, 33]).2.2.2.1
      (by decide) rfl rfl,
   (claim_C5_fixed_window (fun _ => 0) 45 10 2 30 [31, 32, 33]).2.2.2.2 rfl
      (by decide)⟩

/-- C6 counterexample: with two entries in the email high queue and one
in the normal queue, one queue-processing pass sends the oldest high
entry and then the normal entry while a high entry is still queued —
refuting the claim that a drain processes every high-priority entry
before any normal-priority entry. -/
theorem claim_C6_counterexample :
    (processChannelQueue twoHighOneNormal .email).2 = ["h1", "n1"] ∧
    (processChannelQueue twoHighOneNormal .email).1.ready .email .high = ["h2"] := by
  refine ⟨?_, ?_⟩ <;> decide

/-- C6 (amended): one queue-processing pass over a channel dequeues at
most one entry per priority, in the order high, normal, low: the
payloads handed to the send function are the oldest entry of the high
queue (if any), then the oldest of the normal queue, then the oldest of
the low queue; each of the channel's partitions loses exactly its
dequeued entry, and other channels' queues are untouched.  Entries
beyond the first of each priority remain queued for later passes. -/
theorem claim_C6_amended (q : NotifQueues) (ch : Channel) :
    (processChannelQueue q ch).2 =
      (q.ready ch .high).getLast?.toList ++ (q.ready ch .normal).getLast?.toList ++
        (q.ready ch .low).getLast?.toList ∧
    (∀ p, (processChannelQueue q ch).1.ready ch p = (q.ready ch p).dropLast) ∧
    (∀ c p, c ≠ ch → (processChannelQueue q ch).1.ready c p = q.ready c p) :=
  processChannelQueue_spec q ch

/-- Closed instance of the amended C6: in the two-high/one-normal state,
the high partition keeps its newer entry after the pass, and the sms
queues are untouched. -/
theorem claim_C6_amended_witness :
    (processChannelQueue twoHighOneNormal .email).1.ready .email .high =
      (twoHighOneNormal.ready .email .high).dropLast ∧
    (processChannelQueue twoHighOneNormal .email).1.ready .sms .high =
      twoHighOneNormal.ready .sms .high :=
  ⟨(claim_C6_amended twoHighOneNormal .email).2.1 .high,
   (claim_C6_amended twoHighOneNormal .email).2.2 .sms .high (by decide)⟩

/-- C7 counterexample: after enqueue("a") then enqueue("b") into the
empty email/normal partition (neither scheduled), the next dequeue
returns "a", not "b" — the store is LPUSH+RPOP, i.e. FIFO, refuting
the claimed LIFO behaviour. -/
theorem claim_C7_counterexample :
    (dequeueNotification abQueues .email .normal).1 = some "a" ∧
    (dequeueNotification (dequeueNotification abQueues .email .normal).2 .email .normal).1 =
      some "b" ∧
    some "a" ≠ some "b" := by
  refine ⟨?_, ?_, ?_⟩ <;> decide

/-- C7 (amended): each channel+priority partition is a FIFO queue
(`LPUSH` at the head, `RPOP` at the tail): after enqueue(a) then
enqueue(b) (neither scheduled for the future), draining the partition
dequeues all earlier entries in their enqueue order, then a, then b. -/
theorem claim_C7_amended (q : NotifQueues) (ch : Channel) (p : Priority)
    (a b : String) (now : Nat) :
    drainReady ((enqueueNotification (enqueueNotification q ch p a now none)
        ch p b now none).ready ch p) =
      (q.ready ch p).reverse ++ [a, b] := by
  have h : (enqueueNotification (enqueueNotification q ch p a now none)
      ch p b now none).ready ch p = b :: a :: q.ready ch p := by
    simp [enqueueNotification, lpush]
  rw [h, drainReady_eq_reverse]
  simp

/-- C8 counterexample: when every attempt fails, `sendWebhook` throws
(`thrown` is set) and `makeApiCall` rethrows the last network error —
exhaustion is raised as an exception, not returned as a failure
outcome. -/
theorem claim_C8_counterexample :
    (sendWebhook faultFetches (fun _ => 30000) none).thrown =
      some "Webhook delivery failed" ∧
    (makeApiCall faultNet none none none none).result = Except.error "ETIMEDOUT" := by
  refine ⟨by decide, rfl⟩

/-- C8 (amended): the delivery executors never throw on ordinary
delivery failure — `deliverWebhook` returns a structured outcome for
every completed HTTP response (any status; `error` stays empty) and for
every network/timeout fault (caught into `error`), and `makeRequest`
returns completed 4xx/5xx responses as values — but when all retries
are exhausted, both retry wrappers (`sendWebhook` and `makeApiCall`)
raise an exception rather than returning a failure outcome. -/
theorem claim_C8_amended (status d n : Nat) (body msg : String)
    (outcome : Nat → AttemptResult) (net : NetBehavior) (es : Nat → String)
    (oRA sRA oRD sRD : Option Nat) :
    deliverWebhook (.response status body) d =
      { success := responseOk status, responseStatus := some status,
        responseBody := some body, error := none, duration := d } ∧
    deliverWebhook (.fault msg) d =
      { success := false, responseStatus := none, responseBody := none,
        error := some msg, duration := d } ∧
    (∀ resp, net 0 = .ok resp → (makeApiCall net oRA sRA oRD sRD).result = .ok resp) ∧
    ((∀ i, (outcome i).success = false) →
      (sendWebhookCore outcome n).thrown.isSome = true) ∧
    ((∀ i, net i = .error (es i)) →
      (makeApiCall net oRA sRA oRD sRD).result =
        .error (es (nullishResolve oRA sRA configRetryAttempts))) := by
  refine ⟨rfl, rfl, ?_, ?_, ?_⟩
  · intro resp h
    rw [makeApiCall_firstResolved net resp oRA sRA oRD sRD h]
  · intro hfail
    rw [sendWebhookCore_allFail outcome n hfail]
    rfl
  · intro hnet
    rw [makeApiCall_allError es net hnet oRA sRA oRD sRD]

/-- Closed instance of the amended C8: a completed 404 is a structured
outcome of the executor; exhaustion throws on both paths. -/
theorem claim_C8_amended_witness :
    deliverWebhook (.response 404 "not found") 9 =
      { success := responseOk 404, responseStatus := some 404,
        responseBody := some "not found", error := none, duration := 9 } ∧
    (makeApiCall net500 none none none none).result = .ok resp500 ∧
    (sendWebhookCore failOutcome 1).thrown.isSome = true ∧
    (makeApiCall faultNet none none none none).result =
      .error ((fun _ => "ETIMEDOUT") (nullishResolve none none configRetryAttempts)) :=
  ⟨(claim_C8_amended 404 9 1 "not found" "m" failOutcome net500
      (fun _ => "ETIMEDOUT") none none none none).1,
   (claim_C8_amended 404 9 1 "not found" "m" failOutcome net500
      (fun _ => "ETIMEDOUT") none none none none).2.2.1 resp500 rfl,
   (claim_C8_amended 404 9 1 "not found" "m" failOutcome net500
      (fun _ => "ETIMEDOUT") none none none none).2.2.2.1 (fun _ => rfl),
   (claim_C8_amended 404 9 1 "not found" "m" failOutcome faultNet
      (fun _ => "ETIMEDOUT") none none none none).2.2.2.2 (fun _ => rfl)⟩

/-- C9 counterexample: the API-client path returns a completed HTTP 500
response as its result after exactly one attempt and no backoff sleep,
even though maxRetries resolves to 3 — refuting the claim that every
delivery path retries 5xx responses. -/
theorem claim_C9_counterexample :
    nullishResolve none (some 3) configRetryAttempts = 3 ∧
    (makeApiCall net500 none (some 3) none none).result = Except.ok resp500 ∧
    (makeApiCall net500 none (some 3) none none).attempts = 1 ∧
    (makeApiCall net500 none (some 3) none none).sleeps = [] := by
  exact ⟨rfl, rfl, rfl, rfl⟩

/-- C9 (amended): only the webhook path treats a completed 5xx response
as a transient failure — `deliverWebhook` classifies any non-2xx status
as failed, and a failed first attempt with maxRetries ≥ 1 leads to a
second attempt; the API-client path retries only thrown
network/timeout faults and returns any completed response, 5xx
included, as the final result of a single attempt. -/
theorem claim_C9_amended (status d n : Nat) (body : String)
    (outcome : Nat → AttemptResult) (net : NetBehavior) (oRA sRA oRD sRD : Option Nat) :
    (500 ≤ status → status < 600 →
      (deliverWebhook (.response status body) d).success = false) ∧
    (1 ≤ n → (outcome 0).success = false →
      2 ≤ (sendWebhookCore outcome n).records.length) ∧
    (∀ resp, net 0 = .ok resp →
      makeApiCall net oRA sRA oRD sRD =
        { attempts := 1, sleeps := [], result := .ok resp }) := by
  refine ⟨?_, ?_, ?_⟩
  · intro h5 h6
    simp only [deliverWebhook, responseOk]
    simp only [Bool.and_eq_false_iff, decide_eq_false_iff_not]
    right
    omega
  · exact sendWebhookCore_retries_first_failure outcome n
  · intro resp h
    exact makeApiCall_firstResolved net resp oRA sRA oRD sRD h

/-- Closed instance of the amended C9: a completed 503 is classified
failed by the webhook executor and retried; the API client returns the
500 at once. -/
theorem claim_C9_amended_witness :
    (deliverWebhook (.response 503 "unavailable") 4).success = false ∧
    2 ≤ (sendWebhookCore failOutcome 3).records.length ∧
    makeApiCall net500 none (some 3) none none =
      { attempts := 1, sleeps := [], result := .ok resp500 } :=
  ⟨(claim_C9_amended 503 4 3 "unavailable" failOutcome net500
      none (some 3) none none).1 (by decide) (by decide),
   (claim_C9_amended 503 4 3 "unavailable" failOutcome net500
      none (some 3) none none).2.1 (by decide) rfl,
   (claim_C9_amended 503 4 3 "unavailable" failOutcome net500
      none (some 3) none none).2.2 resp500 rfl⟩

/-- C10: the pre-send admission check of the notification service
compares only the length of the channel's normal-priority ready queue
with the channel's configured per-minute limit: it equals
`decide (length < limit)`, and any two stores agreeing on that one
queue get the same verdict, whatever their high/low queues and
scheduled stores contain; the check takes no clock input at all, so no
time window is consulted. -/
theorem claim_C10_admission (q r : NotifQueues) (limits : Channel → Nat) (ch : Channel) :
    checkNotifRateLimit q limits ch =
      decide ((q.ready ch .normal).length < limits ch) ∧
    (q.ready ch .normal = r.ready ch .normal →
      checkNotifRateLimit q limits ch = checkNotifRateLimit r limits ch) := by
  refine ⟨rfl, ?_⟩
  intro h
  simp [checkNotifRateLimit, getQueueLength, h]

/-- Closed instance of C10: adding a high-priority entry and a scheduled
entry leaves the admission verdict unchanged. -/
theorem claim_C10_admission_witness :
    checkNotifRateLimit admissionBase defaultRateLimits .email =
      decide ((admissionBase.ready .email .normal).length < defaultRateLimits .email) ∧
    checkNotifRateLimit admissionBase defaultRateLimits .email =
      checkNotifRateLimit admissionBusy defaultRateLimits .email :=
  ⟨(claim_C10_admission admissionBase admissionBusy defaultRateLimits .email).1,
   (claim_C10_admission admissionBase admissionBusy defaultRateLimits .email).2 (by decide)⟩

end BunRedis
